import Mathlib

/-!
Verification of the p2p stream-mounting layer of go-ipfs (package p2p and
the `ipfs p2p` command surface): a shallow embedding of the StreamRegistry,
the Stream close/reset lifecycle, the local-forward listener and the
administrative forward/close commands, with theorems checking the spec's
claims about them.
-/

namespace P2P

/-- Data carried by a registered stream, as the registry and the listing
command see it: protocol tag, origin address and target address (addresses
rendered as strings). Embeds the `Stream` record fields of the source other
than the endpoint handles and the registry back-reference. -/
structure StreamInfo where
  protocol : String
  originAddr : String
  targetAddr : String
deriving DecidableEq, Repr

/-- StreamRegistry: the map from numeric handle to stream (an association
list whose keys are the handles) together with the next-handle counter
`nextID`. Embeds the `StreamRegistry` struct of the source; the mutex is
modelled by treating each operation as one atomic step. -/
structure StreamRegistry where
  Streams : List (Nat × StreamInfo)
  nextID : Nat
deriving DecidableEq, Repr

/-- A fresh registry: empty map, `nextID = 0`. -/
def StreamRegistry.fresh : StreamRegistry := ⟨[], 0⟩

/-- Register: assigns the current `nextID` as the stream's handle, inserts
the stream into the map at that handle, and increments `nextID`. Returns the
updated registry together with the handle assigned (the source writes the
handle into the stream's `id` field). -/
def StreamRegistry.Register (r : StreamRegistry) (s : StreamInfo) :
    StreamRegistry × Nat :=
  (⟨(r.nextID, s) :: r.Streams, r.nextID + 1⟩, r.nextID)

/-- Deregister: removes the entry at `streamID` from the map (Go `delete`);
the counter is untouched. -/
def StreamRegistry.Deregister (r : StreamRegistry) (streamID : Nat) :
    StreamRegistry :=
  ⟨r.Streams.filter (fun p => p.1 != streamID), r.nextID⟩

/-- One atomic operation on the stream registry: a `Register` call (with the
stream data it carries) or a `Deregister` call (with the handle it names).
Because every registry operation of the source runs under the registry's
mutex, any concurrent interleaving of callers is some sequence of these. -/
inductive RegOp where
  | register (s : StreamInfo)
  | deregister (h : Nat)
deriving DecidableEq, Repr

/-- Run a sequence of registry operations from a starting state, returning
the final registry and the list of handles assigned by the `register`
operations, in order. -/
def runOps : StreamRegistry → List RegOp → StreamRegistry × List Nat
  | r, [] => (r, [])
  | r, RegOp.register s :: ops =>
    let p := r.Register s
    let q := runOps p.1 ops
    (q.1, p.2 :: q.2)
  | r, RegOp.deregister h :: ops => runOps (r.Deregister h) ops

/-- The number of `register` operations in a sequence. -/
def countRegisters : List RegOp → Nat
  | [] => 0
  | RegOp.register _ :: ops => countRegisters ops + 1
  | RegOp.deregister _ :: ops => countRegisters ops

/-- Status of a stream's local endpoint (the manet connection). -/
inductive LocalEnd where
  | opened
  | closed
deriving DecidableEq, Repr

/-- Status of a stream's remote endpoint (the libp2p overlay stream);
`Close` ends it gracefully, `Reset` aborts it abruptly, and the two are
signalled distinctly to the peer. -/
inductive RemoteEnd where
  | opened
  | closedGraceful
  | resetAbrupt
deriving DecidableEq, Repr

/-- One live stream as the lifecycle operations see it: its assigned handle,
the status of its two endpoints, and the owning registry (the source holds a
back-pointer; here the registry state is carried in the record). -/
structure Stream where
  id : Nat
  localEnd : LocalEnd
  remote : RemoteEnd
  registry : StreamRegistry
deriving DecidableEq, Repr

/-- The primitive effects a stream lifecycle operation performs, in the
order it performs them. -/
inductive StreamAction where
  | closeLocal
  | closeRemote
  | resetRemote
  | deregister (h : Nat)
deriving DecidableEq, Repr

/-- Stream.Close of the source: `s.Local.Close()`, then `s.Remote.Close()`,
then `s.Registry.Deregister(s.id)` (and returns nil). The second component
is the trace of effects in source order. -/
def Stream.Close (s : Stream) : Stream × List StreamAction :=
  (⟨s.id, LocalEnd.closed, RemoteEnd.closedGraceful, s.registry.Deregister s.id⟩,
   [StreamAction.closeLocal, StreamAction.closeRemote, StreamAction.deregister s.id])

/-- Stream.Reset of the source: `s.Local.Close()`, then `s.Remote.Reset()`,
then `s.Registry.Deregister(s.id)` (and returns nil). -/
def Stream.Reset (s : Stream) : Stream × List StreamAction :=
  (⟨s.id, LocalEnd.closed, RemoteEnd.resetAbrupt, s.registry.Deregister s.id⟩,
   [StreamAction.closeLocal, StreamAction.resetRemote, StreamAction.deregister s.id])

/-- How one direction's `io.Copy` ended: clean end-of-stream (`ok`, the Go
call returns a nil error) or a read/write error (`ioError`). -/
inductive CopyResult where
  | ok
  | ioError
deriving DecidableEq, Repr

/-- Terminal action of the first goroutine of `startStreaming`, which runs
`io.Copy(s.Local, s.Remote)` (remote to local) and then calls `s.Reset()`
whatever the copy returned. -/
def startStreamingRemoteToLocal (_res : CopyResult) (s : Stream) :
    Stream × List StreamAction :=
  Stream.Reset s

/-- Terminal action of the second goroutine of `startStreaming`, which runs
`_, err := io.Copy(s.Remote, s.Local)` (local to remote) and calls
`s.Reset()` when `err != nil` and `s.Close()` otherwise. -/
def startStreamingLocalToRemote (res : CopyResult) (s : Stream) :
    Stream × List StreamAction :=
  match res with
  | CopyResult.ioError => Stream.Reset s
  | CopyResult.ok => Stream.Close s

/-- A peer identity; the source renders it with `peer.ID.Pretty()`, kept
here as the rendered field of an otherwise opaque value. -/
structure PeerID where
  Pretty : String
deriving DecidableEq, Repr

/-- The local-forward listener's fields used by the embedded operations:
protocol tag, bound listen address and target peer (the source also carries
the context, the owning P2P value and the bound socket). -/
structure LocalListener where
  proto : String
  laddr : String
  peer : PeerID
deriving DecidableEq, Repr

/-- localListener.Protocol of the source. -/
def LocalListener.Protocol (l : LocalListener) : String := l.proto

/-- localListener.ListenAddress of the source. -/
def LocalListener.ListenAddress (l : LocalListener) : String := l.laddr

/-- localListener.TargetAddress of the source:
`"/ipfs/" + l.peer.Pretty()`. -/
def LocalListener.TargetAddress (l : LocalListener) : String :=
  "/ipfs/" ++ l.peer.Pretty

/-- The connection data the accept loop reads from an accepted local
connection: its reported remote multiaddr (used as the stream's origin). -/
structure ConnInfo where
  remoteMultiaddr : String
deriving DecidableEq, Repr

/-- One iteration's worth of input to the accept loop: either the blocking
`Accept` call fails, or it yields a connection together with the outcome of
the subsequent `dial` of the target peer (`none` = dial error, `some`
names the remote stream obtained). -/
inductive AcceptEvent where
  | acceptError
  | conn (c : ConnInfo) (dial : Option String)
deriving DecidableEq, Repr

/-- Observable actions of the accept loop: closing a just-accepted local
connection, or registering a stream (with its assigned handle and data) and
starting its relay. -/
inductive AcceptAction where
  | closedLocal (c : ConnInfo)
  | registered (h : Nat) (st : StreamInfo)
deriving DecidableEq, Repr

/-- localListener.acceptConns of the source, run over a finite prefix of
accept outcomes (`tgtParseOk` is the outcome of `ma.NewMultiaddr` on the
listener's constant target-address string, a parse that happens anew each
iteration). Per iteration: an `Accept` error returns from the loop; a dial
error closes the just-accepted connection and returns; a target-address
parse failure closes the connection and returns; otherwise a Stream is
built (protocol, origin = the connection's remote multiaddr, target = the
listener's target address), registered, and its relay started, and the loop
continues with the next event. -/
def acceptConns (l : LocalListener) (tgtParseOk : Bool) :
    StreamRegistry → List AcceptEvent → StreamRegistry × List AcceptAction
  | r, [] => (r, [])
  | r, AcceptEvent.acceptError :: _ => (r, [])
  | r, AcceptEvent.conn c none :: _ => (r, [AcceptAction.closedLocal c])
  | r, AcceptEvent.conn c (some _) :: rest =>
    if tgtParseOk then
      let st : StreamInfo := ⟨l.proto, c.remoteMultiaddr, l.TargetAddress⟩
      let p := r.Register st
      let q := acceptConns l tgtParseOk p.1 rest
      (q.1, AcceptAction.registered p.2 st :: q.2)
    else (r, [AcceptAction.closedLocal c])

/-- Modelled from the spec: the ListenerRegistry's key for a listener, the
composite (protocol, listen-address, target-address) triple (the source's
`getListenerKey` and the registry internals live in a file of the
repository not included under src/). -/
def getListenerKey (l : LocalListener) : String × String × String :=
  (l.Protocol, l.ListenAddress, l.TargetAddress)

/-- Modelled from the spec: ListenerRegistry state, a map from composite
key to listener plus the single provisional reservation slot used by the
two-phase lock/unlock protocol (the source file defining it is not under
src/). -/
structure ListenerRegistry where
  Listeners : List ((String × String × String) × LocalListener)
  lockedKey : Option (String × String × String)
deriving DecidableEq, Repr

/-- Modelled from the spec: `lock(candidate)` fails with a DuplicateListener
error when a listener with the candidate's key exists or a registration is
mid-flight; otherwise it reserves the slot for the candidate's key. -/
def ListenerRegistry.lock (r : ListenerRegistry) (l : LocalListener) :
    Except String ListenerRegistry :=
  if r.lockedKey.isSome then
    Except.error "registration already in progress"
  else if (r.Listeners.map Prod.fst).contains (getListenerKey l) then
    Except.error "listener already registered"
  else
    Except.ok ⟨r.Listeners, some (getListenerKey l)⟩

/-- Modelled from the spec: `unlock()` releases the provisional reservation
without registering anything. -/
def ListenerRegistry.unlock (r : ListenerRegistry) : ListenerRegistry :=
  ⟨r.Listeners, none⟩

/-- Modelled from the spec: `Register(listener)` inserts the listener at its
key and clears the provisional reservation. -/
def ListenerRegistry.Register (r : ListenerRegistry) (l : LocalListener) :
    ListenerRegistry :=
  ⟨(getListenerKey l, l) :: r.Listeners, none⟩

/-- The calls ForwardLocal makes on its collaborators, in order: the lock
attempt, the `manet.Listen` bind, the `unlock`, the registry `Register`, and
the `go listener.acceptConns()` start. -/
inductive FLAction where
  | lockAttempt
  | listenBind
  | unlock
  | registerListener
  | startAcceptLoop
deriving DecidableEq, Repr

/-- P2P.ForwardLocal of the source: build the candidate listener; `lock` it
into the registry, returning the lock error on failure; bind the local
listen address (`bindErr` is the outcome of the external `manet.Listen`
call, `some e` = bind failure), calling `unlock` and returning the bind
error on failure; otherwise `Register` the listener, start its accept loop
and return it. Result: the returned value, the registry afterwards, and the
trace of collaborator calls in source order. -/
def ForwardLocal (reg : ListenerRegistry) (p : PeerID) (proto : String)
    (bindAddr : String) (bindErr : Option String) :
    Except String LocalListener × ListenerRegistry × List FLAction :=
  let listener : LocalListener := ⟨proto, bindAddr, p⟩
  match reg.lock listener with
  | Except.error e => (Except.error e, reg, [FLAction.lockAttempt])
  | Except.ok reg₁ =>
    match bindErr with
    | some e =>
      (Except.error e, reg₁.unlock,
       [FLAction.lockAttempt, FLAction.listenBind, FLAction.unlock])
    | none =>
      (Except.ok listener, reg₁.Register listener,
       [FLAction.lockAttempt, FLAction.listenBind, FLAction.registerListener,
        FLAction.startAcceptLoop])

/-- strings.HasPrefix of Go: whether `pre` is a prefix of `s`, computed
over the character lists so concrete instances evaluate in the kernel. -/
def startsWithStr (s pre : String) : Bool := pre.data.isPrefixOf s.data

/-- strconv.ParseUint(arg, 10, 64) of Go as the stream-close command uses
it, over Nat (the 64-bit range cap is not modelled): `none` for an empty
argument or one with a non-digit character. -/
def parseDigits : List Char → Nat → Option Nat
  | [], acc => some acc
  | c :: cs, acc =>
    if c.isDigit then parseDigits cs (10 * acc + (c.toNat - 48)) else none

/-- Decimal parse of a whole string; see parseDigits. -/
def parseUintDecimal (s : String) : Option Nat :=
  if s.data.isEmpty then none else parseDigits s.data 0

/-- What the forward command's Run function does with its three arguments
once the node is obtained: return an error, or invoke the core with a
ForwardRemote call (proto, target) or a ForwardLocal call (proto, listen,
target). -/
inductive ForwardOutcome where
  | error (msg : String)
  | forwardRemoteCall (proto target : String)
  | forwardLocalCall (proto listen target : String)
deriving DecidableEq, Repr

/-- forwardRemote of src/core/commands/p2p.go, up to its multiaddr parse:
a target that begins with "/ipfs" is rejected (no forwarding of libp2p
service connections to another libp2p service); otherwise the request
proceeds to the core's ForwardRemote. -/
def forwardRemoteCheck (proto target : String) : ForwardOutcome :=
  if startsWithStr target "/ipfs" then
    ForwardOutcome.error
      "cannot forward libp2p service connections to another libp2p service"
  else ForwardOutcome.forwardRemoteCall proto target

/-- p2pForwardCmd.Run of src/core/commands/p2p.go: the protocol passed on
is the implicit prefix "/p2p/" plus the user's protocol argument; a listen
address beginning with "/ipfs" must be exactly "/ipfs" (else an error) and
dispatches to forwardRemote; any other listen address dispatches to
forwardLocal. (The source's error strings quote /ipfs; the quotes are
omitted here.) -/
def p2pForwardRun (protocolArg listen target : String) : ForwardOutcome :=
  let proto := "/p2p/" ++ protocolArg
  if startsWithStr listen "/ipfs" then
    if listen ≠ "/ipfs" then
      ForwardOutcome.error "only /ipfs is allowed as libp2p listen address"
    else forwardRemoteCheck proto target
  else ForwardOutcome.forwardLocalCall proto listen target

/-- A registered listener as the close command's matcher sees it: the three
rendered strings Protocol(), ListenAddress(), TargetAddress(). -/
structure ListenerView where
  protocol : String
  listenAddress : String
  targetAddress : String
deriving DecidableEq, Repr

/-- The options of the close command: --all, and the optional protocol,
listen-address and target-address matchers (`none` = option not given, as
the Go option lookup's found flag). -/
structure CloseOpts where
  closeAll : Bool
  protoOpt : Option String
  listenOpt : Option String
  targetOpt : Option String
deriving DecidableEq, Repr

/-- One call of the close command's `match` closure on one listener. The
closure mutates the captured `proto` variable: whenever the protocol option
was given (or `proto` lacks the "/p2p/" marker) it prepends "/p2p/" to it,
and the mutated value persists into the next call; so the function returns
the new `proto` alongside the match verdict. Embeds the closure body of
p2pCloseCmd.Run. -/
def closeMatchStep (closeAll p l t : Bool) (listen target : String)
    (proto : String) (lst : ListenerView) : String × Bool :=
  let proto := if p || !(startsWithStr proto "/p2p/") then "/p2p/" ++ proto else proto
  let out := true
  let out := if p then out && (proto == lst.protocol) else out
  let out := if l then out && (listen == lst.listenAddress) else out
  let out := if t then out && (target == lst.targetAddress) else out
  (proto, out || closeAll)

/-- The close command's iteration over the registered listeners, threading
the mutated `proto` through the `match` calls and collecting the count and
the listeners closed. -/
def closeFold (closeAll p l t : Bool) (listen target : String) :
    String → List ListenerView → Nat × List ListenerView
  | _, [] => (0, [])
  | proto, lst :: rest =>
    let step := closeMatchStep closeAll p l t listen target proto lst
    let q := closeFold closeAll p l t listen target step.1 rest
    if step.2 then (q.1 + 1, lst :: q.2) else q

/-- p2pCloseCmd.Run of src/core/commands/p2p.go, after the node is
obtained: an error when no matching option is given, an error when --all is
combined with a matching option, and otherwise the iteration that closes
every matching listener and reports the count (the source's error strings
are shortened to avoid quoting). -/
def p2pCloseRun (opts : CloseOpts) (listeners : List ListenerView) :
    Except String (Nat × List ListenerView) :=
  let closeAll := opts.closeAll
  let p := opts.protoOpt.isSome
  let l := opts.listenOpt.isSome
  let t := opts.targetOpt.isSome
  let proto := opts.protoOpt.getD ""
  let listen := opts.listenOpt.getD ""
  let target := opts.targetOpt.getD ""
  if !(closeAll || p || l || t) then
    Except.error "no connection matching options given"
  else if closeAll && (p || l || t) then
    Except.error "cannot combine --all with other matching options"
  else
    Except.ok (closeFold closeAll p l t listen target proto listeners)

/-- p2pStreamCloseCmd.Run of src/core/commands/p2p.go, after the node is
obtained, acting on the stream registry: with --all every stream is Reset
(each Reset deregisters its handle, emptying the map); otherwise a missing
id argument is an error, an unparsable id is an error (ParseUint modelled
by parseUintDecimal), and a parsed handle Resets the stream at that handle if
present — the loop body skips every other entry and a handle not in the map
matches nothing, silently. -/
def p2pStreamCloseRun (closeAll : Bool) (args : List String)
    (r : StreamRegistry) : Except String StreamRegistry :=
  if closeAll then
    Except.ok ⟨[], r.nextID⟩
  else
    match args with
    | [] => Except.error "no id specified"
    | a :: _ =>
      match parseUintDecimal a with
      | none => Except.error "invalid stream id"
      | some h => Except.ok (r.Deregister h)

/-! Helper lemmas about the stream registry. -/

/-- Running a sequence of operations assigns the consecutive handles
starting at the initial counter, one per `register`, and advances the
counter by the number of `register` operations. -/
theorem runOps_handles (ops : List RegOp) : ∀ r : StreamRegistry,
    (runOps r ops).2 = List.range' r.nextID (countRegisters ops) ∧
    (runOps r ops).1.nextID = r.nextID + countRegisters ops := by
  induction ops with
  | nil => intro r; simp [runOps, countRegisters]
  | cons op ops ih =>
    intro r
    cases op with
    | register s =>
      have h := ih ⟨(r.nextID, s) :: r.Streams, r.nextID + 1⟩
      refine ⟨?_, ?_⟩
      · simp only [runOps, StreamRegistry.Register, countRegisters,
          List.range'_succ]
        exact congrArg (r.nextID :: ·) h.1
      · simp only [runOps, StreamRegistry.Register, countRegisters]
        have h2 := h.2
        simp only at h2
        omega
    | deregister hh =>
      have h := ih (r.Deregister hh)
      simpa [runOps, countRegisters, StreamRegistry.Deregister] using h

/-- Deregister leaves the next-handle counter untouched. -/
theorem deregister_nextID (r : StreamRegistry) (h : Nat) :
    (r.Deregister h).nextID = r.nextID := rfl

/-- Mapping a list of stream data to `register` operations yields that many
registrations. -/
theorem countRegisters_map_register (ss : List StreamInfo) :
    countRegisters (ss.map RegOp.register) = ss.length := by
  induction ss with
  | nil => rfl
  | cons s ss ih => simp [countRegisters, ih]

/-- Filtering a list with the same predicate twice equals filtering once. -/
theorem filter_idem {α : Type} (p : α → Bool) (l : List α) :
    (l.filter p).filter p = l.filter p := by
  induction l with
  | nil => rfl
  | cons a l ih =>
    by_cases h : p a
    · simp [List.filter_cons, h, ih]
    · simp [List.filter_cons, h, ih]

/-- Deregistering a handle that is not a key of the map leaves the registry
unchanged. -/
theorem deregister_absent_eq (r : StreamRegistry) (h : Nat)
    (habs : h ∉ r.Streams.map Prod.fst) : r.Deregister h = r := by
  cases r with
  | mk streams nid =>
    simp only [StreamRegistry.Deregister]
    have hfil : streams.filter (fun p => p.1 != h) = streams := by
      apply List.filter_eq_self.mpr
      intro a ha
      have hne : a.1 ≠ h := by
        intro heq
        exact habs (List.mem_map.mpr ⟨a, ha, heq⟩)
      simpa using hne
    rw [hfil]

/-- C1: on a fresh registry, a sequence of N Register calls assigns exactly
the handles 0..N-1 with no repeats; and after any operation sequence `pre`
assigns a handle h, deregistering h and running any further operations
`post` never assigns h again, because the next-handle counter only ever
increments. -/
theorem register_handles_unique_never_reused
    (ss : List StreamInfo) (pre post : List RegOp) (h : Nat)
    (hmem : h ∈ (runOps StreamRegistry.fresh pre).2) :
    (runOps StreamRegistry.fresh (ss.map RegOp.register)).2 =
      List.range ss.length ∧
    (List.range ss.length).Nodup ∧
    h ∉ (runOps ((runOps StreamRegistry.fresh pre).1.Deregister h) post).2 := by
  have hN := runOps_handles (ss.map RegOp.register) StreamRegistry.fresh
  have hpre := runOps_handles pre StreamRegistry.fresh
  have hpost :=
    runOps_handles post ((runOps StreamRegistry.fresh pre).1.Deregister h)
  refine ⟨?_, List.nodup_range _, ?_⟩
  · rw [hN.1, countRegisters_map_register, List.range_eq_range']
    rfl
  · intro hcontra
    rw [hpost.1, deregister_nextID, hpre.2] at hcontra
    rw [hpre.1] at hmem
    have hlt := (List.mem_range'_1.mp hmem).2
    have hge := (List.mem_range'_1.mp hcontra).1
    simp only [StreamRegistry.fresh] at hlt hge
    omega

/-- C1 witness: a fresh registry's single registration assigns handle 0;
after deregistering 0, a further registration does not assign 0 again. -/
theorem register_handles_unique_never_reused_witness :
    0 ∈ (runOps StreamRegistry.fresh [RegOp.register ⟨"/p2p/x", "o", "t"⟩]).2 ∧
    ((runOps StreamRegistry.fresh
        (([⟨"/p2p/x", "o", "t"⟩] : List StreamInfo).map RegOp.register)).2 =
      List.range ([⟨"/p2p/x", "o", "t"⟩] : List StreamInfo).length ∧
    (List.range ([⟨"/p2p/x", "o", "t"⟩] : List StreamInfo).length).Nodup ∧
    0 ∉ (runOps
      ((runOps StreamRegistry.fresh
        [RegOp.register ⟨"/p2p/x", "o", "t"⟩]).1.Deregister 0)
      [RegOp.register ⟨"/p2p/y", "o", "t"⟩]).2) :=
  ⟨by decide,
   register_handles_unique_never_reused [⟨"/p2p/x", "o", "t"⟩]
     [RegOp.register ⟨"/p2p/x", "o", "t"⟩]
     [RegOp.register ⟨"/p2p/y", "o", "t"⟩] 0 (by decide)⟩

/-- C7: Deregister is idempotent — deregistering the same handle twice
yields the state one deregistration yields — and deregistering a handle not
in the map leaves the registry unchanged (and is a total operation: no
failure is possible). -/
theorem deregister_idempotent (r : StreamRegistry) (h : Nat) :
    (r.Deregister h).Deregister h = r.Deregister h ∧
    (h ∉ r.Streams.map Prod.fst → r.Deregister h = r) := by
  constructor
  · simp only [StreamRegistry.Deregister, filter_idem]
  · exact deregister_absent_eq r h

/-- C7 witness: on a concrete one-entry registry, deregistering the absent
handle 5 twice equals doing it once, and doing it once changes nothing. -/
theorem deregister_idempotent_witness :
    5 ∉ ((⟨[(0, ⟨"/p2p/x", "o", "t"⟩)], 1⟩ :
        StreamRegistry).Streams.map Prod.fst) ∧
    ((⟨[(0, ⟨"/p2p/x", "o", "t"⟩)], 1⟩ :
        StreamRegistry).Deregister 5).Deregister 5 =
      (⟨[(0, ⟨"/p2p/x", "o", "t"⟩)], 1⟩ : StreamRegistry).Deregister 5 ∧
    (⟨[(0, ⟨"/p2p/x", "o", "t"⟩)], 1⟩ : StreamRegistry).Deregister 5 =
      ⟨[(0, ⟨"/p2p/x", "o", "t"⟩)], 1⟩ :=
  ⟨by decide,
   (deregister_idempotent ⟨[(0, ⟨"/p2p/x", "o", "t"⟩)], 1⟩ 5).1,
   (deregister_idempotent ⟨[(0, ⟨"/p2p/x", "o", "t"⟩)], 1⟩ 5).2 (by decide)⟩

/-- C3: the remote-to-local copy direction of startStreaming performs Reset
when it completes, whatever the copy's outcome; the local-to-remote
direction performs Close on clean end-of-stream and Reset on an error —
so the remote endpoint ends reset by direction A, and gracefully closed or
reset by direction B according to its copy's outcome. -/
theorem startStreaming_terminal_actions (res : CopyResult) (s : Stream) :
    startStreamingRemoteToLocal res s = Stream.Reset s ∧
    startStreamingLocalToRemote CopyResult.ok s = Stream.Close s ∧
    startStreamingLocalToRemote CopyResult.ioError s = Stream.Reset s ∧
    (startStreamingRemoteToLocal res s).1.remote = RemoteEnd.resetAbrupt ∧
    (startStreamingLocalToRemote CopyResult.ok s).1.remote =
      RemoteEnd.closedGraceful ∧
    (startStreamingLocalToRemote CopyResult.ioError s).1.remote =
      RemoteEnd.resetAbrupt :=
  ⟨rfl, rfl, rfl, rfl, rfl, rfl⟩

/-- C4: Close closes the local endpoint, closes the remote endpoint
gracefully and deregisters the stream's handle; Reset closes the local
endpoint, aborts the remote endpoint abruptly and deregisters the handle;
in both traces the deregistration is the final step. -/
theorem close_reset_effects (s : Stream) :
    (Stream.Close s).1.localEnd = LocalEnd.closed ∧
    (Stream.Close s).1.remote = RemoteEnd.closedGraceful ∧
    (Stream.Close s).1.registry = s.registry.Deregister s.id ∧
    (Stream.Close s).2.getLast? = some (StreamAction.deregister s.id) ∧
    (Stream.Reset s).1.localEnd = LocalEnd.closed ∧
    (Stream.Reset s).1.remote = RemoteEnd.resetAbrupt ∧
    (Stream.Reset s).1.registry = s.registry.Deregister s.id ∧
    (Stream.Reset s).2.getLast? = some (StreamAction.deregister s.id) :=
  ⟨rfl, rfl, rfl, rfl, rfl, rfl, rfl, rfl⟩

/-- C2 counterexample: in the accept loop, a connection whose dial fails is
closed and the loop returns; a subsequent connection whose dial would
succeed is never processed — no stream is registered for it and the
registry is unchanged — refuting that the loop continues to the next
accept iteration. -/
theorem dial_failure_not_per_connection :
    acceptConns ⟨"/p2p/x", "/ip4/127.0.0.1/tcp/8080", ⟨"QmA"⟩⟩ true
      StreamRegistry.fresh
      [AcceptEvent.conn ⟨"origin1"⟩ none,
       AcceptEvent.conn ⟨"origin2"⟩ (some "remote2")] =
      (StreamRegistry.fresh, [AcceptAction.closedLocal ⟨"origin1"⟩]) ∧
    AcceptAction.registered 0
        ⟨"/p2p/x", "origin2", "/ipfs/" ++ "QmA"⟩ ∉
      (acceptConns ⟨"/p2p/x", "/ip4/127.0.0.1/tcp/8080", ⟨"QmA"⟩⟩ true
        StreamRegistry.fresh
        [AcceptEvent.conn ⟨"origin1"⟩ none,
         AcceptEvent.conn ⟨"origin2"⟩ (some "remote2")]).2 :=
  ⟨rfl, by decide⟩

/-- C2 amended: on a dial failure the accept loop closes the just-accepted
local connection and terminates (returns): whatever events would have
followed, the loop performs only that close and registers nothing. -/
theorem dial_failure_closes_and_terminates (l : LocalListener) (tp : Bool)
    (r : StreamRegistry) (c : ConnInfo) (rest : List AcceptEvent) :
    acceptConns l tp r (AcceptEvent.conn c none :: rest) =
      (r, [AcceptAction.closedLocal c]) := rfl

/-- C6 counterexample: the target address reported for a peer is not
"peer:" followed by the peer identity. -/
theorem target_address_not_peer_colon :
    LocalListener.TargetAddress ⟨"/p2p/x", "/ip4/127.0.0.1/tcp/8080",
      ⟨"QmPeer"⟩⟩ ≠ "peer:" ++ "QmPeer" := by decide

/-- C6 amended: the local-forward listener's target address string is
"/ipfs/" followed by the peer identity (its pretty rendering), and that
string is the target address of every stream the accept loop registers. -/
theorem target_address_ipfs_of_peer (l : LocalListener) (tp : Bool)
    (r : StreamRegistry) (evs : List AcceptEvent) (h : Nat) (st : StreamInfo)
    (hmem : AcceptAction.registered h st ∈ (acceptConns l tp r evs).2) :
    l.TargetAddress = "/ipfs/" ++ l.peer.Pretty ∧
    st.targetAddr = "/ipfs/" ++ l.peer.Pretty := by
  refine ⟨rfl, ?_⟩
  induction evs generalizing r with
  | nil => simp [acceptConns] at hmem
  | cons ev rest ih =>
    cases ev with
    | acceptError => simp [acceptConns] at hmem
    | conn c dial =>
      cases dial with
      | none => simp [acceptConns] at hmem
      | some rem =>
        cases tp with
        | false => simp [acceptConns] at hmem
        | true =>
          simp only [acceptConns, if_true, List.mem_cons] at hmem
          cases hmem with
          | inl heq =>
            cases heq
            rfl
          | inr hmem' => exact ih _ hmem'

/-- C6 witness: a concrete accept run registers a stream whose target
address is "/ipfs/QmA". -/
theorem target_address_ipfs_of_peer_witness :
    AcceptAction.registered 0 ⟨"/p2p/x", "o2", "/ipfs/" ++ "QmA"⟩ ∈
      (acceptConns ⟨"/p2p/x", "/b", ⟨"QmA"⟩⟩ true StreamRegistry.fresh
        [AcceptEvent.conn ⟨"o2"⟩ (some "rem")]).2 ∧
    ((⟨"/p2p/x", "/b", ⟨"QmA"⟩⟩ : LocalListener).TargetAddress =
      "/ipfs/" ++ (⟨"/p2p/x", "/b", ⟨"QmA"⟩⟩ : LocalListener).peer.Pretty ∧
    (⟨"/p2p/x", "o2", "/ipfs/" ++ "QmA"⟩ : StreamInfo).targetAddr =
      "/ipfs/" ++ (⟨"/p2p/x", "/b", ⟨"QmA"⟩⟩ : LocalListener).peer.Pretty) :=
  ⟨by decide,
   target_address_ipfs_of_peer ⟨"/p2p/x", "/b", ⟨"QmA"⟩⟩ true
     StreamRegistry.fresh [AcceptEvent.conn ⟨"o2"⟩ (some "rem")] 0
     ⟨"/p2p/x", "o2", "/ipfs/" ++ "QmA"⟩ (by decide)⟩

/-- C5: when the lock step fails, ForwardLocal returns the lock error, the
registry is untouched and neither the bind nor the registration happens;
when the lock succeeds but the bind fails, unlock is called exactly once,
the bind error is returned and the listener is never added to the registry;
when both succeed, the listener is registered, its accept loop is started
and the call returns the listener without error. -/
theorem forwardLocal_paths (reg : ListenerRegistry) (p : PeerID)
    (proto bindAddr e : String) (bErr : Option String) :
    (∀ e₀, reg.lock ⟨proto, bindAddr, p⟩ = Except.error e₀ →
      (ForwardLocal reg p proto bindAddr bErr).1 = Except.error e₀ ∧
      (ForwardLocal reg p proto bindAddr bErr).2.1 = reg ∧
      (ForwardLocal reg p proto bindAddr bErr).2.2 = [FLAction.lockAttempt]) ∧
    (∀ reg₁, reg.lock ⟨proto, bindAddr, p⟩ = Except.ok reg₁ →
      ((ForwardLocal reg p proto bindAddr (some e)).1 = Except.error e ∧
       (ForwardLocal reg p proto bindAddr (some e)).2.1.Listeners =
         reg.Listeners ∧
       (ForwardLocal reg p proto bindAddr (some e)).2.2.count
         FLAction.unlock = 1 ∧
       FLAction.registerListener ∉
         (ForwardLocal reg p proto bindAddr (some e)).2.2 ∧
       (ForwardLocal reg p proto bindAddr none).1 =
         Except.ok ⟨proto, bindAddr, p⟩ ∧
       (ForwardLocal reg p proto bindAddr none).2.1 =
         reg₁.Register ⟨proto, bindAddr, p⟩ ∧
       FLAction.registerListener ∈
         (ForwardLocal reg p proto bindAddr none).2.2 ∧
       FLAction.startAcceptLoop ∈
         (ForwardLocal reg p proto bindAddr none).2.2)) := by
  constructor
  · intro e₀ hlock
    refine ⟨?_, ?_, ?_⟩ <;> simp [ForwardLocal, hlock]
  · intro reg₁ hlock
    have hL : reg₁.Listeners = reg.Listeners := by
      unfold ListenerRegistry.lock at hlock
      split_ifs at hlock
      simp_all
      rw [← hlock]
    have htr : ForwardLocal reg p proto bindAddr (some e) =
        (Except.error e, reg₁.unlock,
         [FLAction.lockAttempt, FLAction.listenBind, FLAction.unlock]) := by
      simp [ForwardLocal, hlock]
    have hok : ForwardLocal reg p proto bindAddr none =
        (Except.ok ⟨proto, bindAddr, p⟩, reg₁.Register ⟨proto, bindAddr, p⟩,
         [FLAction.lockAttempt, FLAction.listenBind, FLAction.registerListener,
          FLAction.startAcceptLoop]) := by
      simp [ForwardLocal, hlock]
    refine ⟨?_, ?_, ?_, ?_, ?_, ?_, ?_, ?_⟩ <;>
      simp [htr, hok, ListenerRegistry.unlock, hL, List.count_cons]

/-- C5 witness: on the empty registry with a successful lock, a failed bind
returns the bind error and a successful bind returns the listener. -/
theorem forwardLocal_paths_witness :
    (⟨[], none⟩ : ListenerRegistry).lock ⟨"/p2p/x", "/ip4/1", ⟨"QmA"⟩⟩ =
      Except.ok ⟨[], some ("/p2p/x", "/ip4/1", "/ipfs/" ++ "QmA")⟩ ∧
    (ForwardLocal ⟨[], none⟩ ⟨"QmA"⟩ "/p2p/x" "/ip4/1" (some "bind failed")).1 =
      Except.error "bind failed" ∧
    (ForwardLocal ⟨[], none⟩ ⟨"QmA"⟩ "/p2p/x" "/ip4/1" none).1 =
      Except.ok ⟨"/p2p/x", "/ip4/1", ⟨"QmA"⟩⟩ := by
  have h := (forwardLocal_paths ⟨[], none⟩ ⟨"QmA"⟩ "/p2p/x" "/ip4/1"
      "bind failed" none).2
    ⟨[], some ("/p2p/x", "/ip4/1", "/ipfs/" ++ "QmA")⟩ rfl
  exact ⟨rfl, h.1, h.2.2.2.2.1⟩

/-- C8: the forward command rejects a remote-forward request (listen
address exactly "/ipfs") whose target begins with "/ipfs", and rejects a
request whose listen address begins with "/ipfs" without being exactly
"/ipfs"; in both cases an error is returned and no core call is made. -/
theorem forward_rejects_ipfs (pArg listen target : String) :
    (listen = "/ipfs" → startsWithStr target "/ipfs" = true →
      p2pForwardRun pArg listen target = ForwardOutcome.error
        "cannot forward libp2p service connections to another libp2p service") ∧
    (startsWithStr listen "/ipfs" = true → listen ≠ "/ipfs" →
      p2pForwardRun pArg listen target = ForwardOutcome.error
        "only /ipfs is allowed as libp2p listen address") := by
  constructor
  · intro h1 h2
    subst h1
    have hsw : startsWithStr "/ipfs" "/ipfs" = true := by decide
    simp [p2pForwardRun, forwardRemoteCheck, hsw, h2]
  · intro h1 h2
    simp [p2pForwardRun, h1, h2]

/-- C8 witness: concrete rejected requests of both kinds. -/
theorem forward_rejects_ipfs_witness :
    ("/ipfs" : String) = "/ipfs" ∧
    startsWithStr "/ipfs/QmT" "/ipfs" = true ∧
    ("/ipfs/QmT" : String) ≠ "/ipfs" ∧
    p2pForwardRun "x" "/ipfs" "/ipfs/QmT" = ForwardOutcome.error
      "cannot forward libp2p service connections to another libp2p service" ∧
    p2pForwardRun "x" "/ipfs/QmT" "/ip4/1" = ForwardOutcome.error
      "only /ipfs is allowed as libp2p listen address" :=
  ⟨rfl, by decide, by decide,
   (forward_rejects_ipfs "x" "/ipfs" "/ipfs/QmT").1 rfl (by decide),
   (forward_rejects_ipfs "x" "/ipfs/QmT" "/ip4/1").2 (by decide) (by decide)⟩

/-- C9 counterexample: closing listeners with a protocol option that
matches no registered listener reports 0 closed with no error, and closing
a stream by a handle absent from the registry returns with no error and no
change — refuting that these produce a tunnel-not-found error. -/
theorem close_no_match_no_error :
    p2pCloseRun ⟨false, some "x", none, none⟩ [] = Except.ok (0, []) ∧
    p2pStreamCloseRun false ["5"] StreamRegistry.fresh =
      Except.ok StreamRegistry.fresh :=
  ⟨rfl, rfl⟩

/-- C9 amended: the close commands return no error for a non-matching
request: with at least one matching option given (and not combined with
--all) the listener close always returns a count, matched or not, and the
stream close with a well-formed handle not in the registry returns the
registry unchanged; the explicit errors are only for option misuse and
unparsable ids. -/
theorem close_absent_silently_succeeds (opts : CloseOpts)
    (listeners : List ListenerView) (r : StreamRegistry) (s : String)
    (h : Nat) :
    (opts.closeAll = false →
      (opts.protoOpt.isSome || opts.listenOpt.isSome ||
        opts.targetOpt.isSome) = true →
      ∃ n cl, p2pCloseRun opts listeners = Except.ok (n, cl)) ∧
    (parseUintDecimal s = some h → h ∉ r.Streams.map Prod.fst →
      p2pStreamCloseRun false [s] r = Except.ok r) := by
  constructor
  · intro hca hopts
    refine ⟨(closeFold false opts.protoOpt.isSome opts.listenOpt.isSome
        opts.targetOpt.isSome (opts.listenOpt.getD "") (opts.targetOpt.getD "")
        (opts.protoOpt.getD "") listeners).1,
      (closeFold false opts.protoOpt.isSome opts.listenOpt.isSome
        opts.targetOpt.isSome (opts.listenOpt.getD "") (opts.targetOpt.getD "")
        (opts.protoOpt.getD "") listeners).2, ?_⟩
    simp [p2pCloseRun, hca, hopts]
  · intro hs habs
    simp only [p2pStreamCloseRun, if_neg, Bool.false_eq_true,
      not_false_eq_true, hs]
    rw [deregister_absent_eq r h habs]

/-- C9 witness: concrete non-matching close requests of both kinds return
without error. -/
theorem close_absent_silently_succeeds_witness :
    (⟨false, some "x", none, none⟩ : CloseOpts).closeAll = false ∧
    ((⟨false, some "x", none, none⟩ : CloseOpts).protoOpt.isSome ||
      (⟨false, some "x", none, none⟩ : CloseOpts).listenOpt.isSome ||
      (⟨false, some "x", none, none⟩ : CloseOpts).targetOpt.isSome) = true ∧
    parseUintDecimal "5" = some 5 ∧
    5 ∉ StreamRegistry.fresh.Streams.map Prod.fst ∧
    (∃ n cl, p2pCloseRun ⟨false, some "x", none, none⟩ [] =
      Except.ok (n, cl)) ∧
    p2pStreamCloseRun false ["5"] StreamRegistry.fresh =
      Except.ok StreamRegistry.fresh := by
  have h := close_absent_silently_succeeds ⟨false, some "x", none, none⟩ []
    StreamRegistry.fresh "5" 5
  exact ⟨rfl, rfl, by decide, by decide, h.1 rfl rfl,
    h.2 (by decide) (by decide)⟩

/-- C10: the forward command does pass "/p2p/" + s to the core, and a close
by protocol s does match a sole listener opened with s; but because the
match closure mutates the captured proto variable, each examined listener
prepends another "/p2p/", so with two listeners the matching one in second
position is not matched and 0 are closed — the code evaluated at the
failing input. -/
theorem close_protocol_match_first_only :
    p2pForwardRun "x" "/ip4/127.0.0.1/tcp/1" "/ipfs/QmT" =
      ForwardOutcome.forwardLocalCall "/p2p/x" "/ip4/127.0.0.1/tcp/1"
        "/ipfs/QmT" ∧
    p2pCloseRun ⟨false, some "x", none, none⟩
      [⟨"/p2p/y", "la1", "ta1"⟩, ⟨"/p2p/x", "la2", "ta2"⟩] =
      Except.ok (0, []) ∧
    p2pCloseRun ⟨false, some "x", none, none⟩ [⟨"/p2p/x", "la2", "ta2"⟩] =
      Except.ok (1, [⟨"/p2p/x", "la2", "ta2"⟩]) :=
  ⟨rfl, rfl, rfl⟩

end P2P
